import Mathlib

/-!
Verification of the go-shellyrpc BLE RPC client.

The Go sources are shallowly embedded: bytes are `Nat`s, the three GATT
characteristics are oracles (`CharDev`), the pseudo-random correlation id
and the JSON codec of the standard library are parameters, and the loops
of the chunked reader/writer are written with explicit fuel (the Go loops
are `for` loops whose termination depends on the oracle's answers).
-/

namespace ShellyRPC

/-- A byte sequence; byte values are naturals (the logic never depends on
them being < 256 except where the code masks). -/
abbrev Bytes := List Nat

/-- The client's fixed source identifier (`SourceName` in the Go source). -/
def SourceName : String := "go-shellyrpc"

/-- `toBytes` from the source: `binary.BigEndian.PutUint32` of a uint32
into a fresh 4-byte slice.  The argument stands for a uint32 value. -/
def toBytes (i : Nat) : Bytes :=
  [i / 2 ^ 24 % 256, i / 2 ^ 16 % 256, i / 2 ^ 8 % 256, i % 256]

/-- `fromBytes` from the source: `binary.BigEndian.Uint32`.  Go panics when
the slice is shorter than 4; we default missing bytes to 0, and only ever
apply it to lists of length ≥ 4. -/
def fromBytes (b : Bytes) : Nat :=
  b.getD 0 0 * 2 ^ 24 + b.getD 1 0 * 2 ^ 16 + b.getD 2 0 * 2 ^ 8 + b.getD 3 0

/-- Model of one GATT device characteristic, the external capability the
core consumes: `GetMTU`, `Read` (the `i`-th call yields these bytes, which
the code copies out of a buffer of size MTU) and `WriteWithoutResponse`
(the `i`-th call, handed this chunk, reports this byte count or an error). -/
structure CharDev where
  getMTU : Except String Nat
  read : Nat → Except String Bytes
  write : Nat → Bytes → Except String Nat

/-- Outcome of `writeToChar`.  `fuelOut` marks the iteration bound being
exhausted, which for MTU ≥ 1 never happens (proved below); for MTU = 0 the
Go loop would spin forever. -/
inductive WResult where
  | ok
  | mtuErr (msg : String)
  | transportErr (msg : String)
  | shortWrite (wrote expected : Nat)
  | fuelOut
deriving DecidableEq, Repr

/-- The loop of `writeToChar`: while data remains, carve off the first
min(MTU, remaining) bytes, hand them to `WriteWithoutResponse`, fail on an
error or a short report, otherwise drop the chunk and continue.  Returns
the trace of chunks handed to the characteristic (the failing attempt
included) together with the outcome. -/
def writeLoop (wr : Nat → Bytes → Except String Nat) (mtu : Nat) :
    Nat → Nat → Bytes → List Bytes × WResult
  | _, _, [] => ([], .ok)
  | 0, _, _ :: _ => ([], .fuelOut)
  | fuel + 1, idx, d :: ds =>
    let chunk := if mtu < (d :: ds).length then (d :: ds).take mtu else d :: ds
    match wr idx chunk with
    | .error e => ([chunk], .transportErr e)
    | .ok n =>
      if n = chunk.length then
        let rest := writeLoop wr mtu fuel (idx + 1) ((d :: ds).drop chunk.length)
        (chunk :: rest.1, rest.2)
      else
        ([chunk], .shortWrite n chunk.length)

/-- `writeToChar` from the source: fetch the MTU, then run the chunking
loop.  Fuel `data.length` suffices whenever MTU ≥ 1. -/
def writeToChar (dev : CharDev) (data : Bytes) : List Bytes × WResult :=
  match dev.getMTU with
  | .error e => ([], .mtuErr e)
  | .ok mtu => writeLoop dev.write mtu data.length 0 data

/-- Outcome of `readFromChar`. -/
inductive RResult where
  | ok (bytes : Bytes)
  | mtuErr (msg : String)
  | readErr (msg : String)
  | fuelOut
deriving DecidableEq, Repr

/-- The loop of `readFromChar`: while `length > 0`, read into a buffer of
size MTU (so at most MTU bytes arrive per call), append everything read to
the accumulator and subtract the count from `length`.  Returns the trace
of per-call byte deliveries and the outcome.  NOTE: faithful to the
source, the appended bytes are *not* capped at the remaining need. -/
def readLoop (rd : Nat → Except String Bytes) (mtu : Nat) :
    Nat → Nat → Int → Bytes → List Bytes × RResult
  | fuel, idx, length, acc =>
    if length ≤ 0 then ([], .ok acc)
    else
      match fuel with
      | 0 => ([], .fuelOut)
      | fuel + 1 =>
        match rd idx with
        | .error e => ([], .readErr e)
        | .ok bytes =>
          let got := bytes.take mtu
          let rest := readLoop rd mtu fuel (idx + 1) (length - got.length) (acc ++ got)
          (got :: rest.1, rest.2)

/-- `readFromChar` from the source: fetch the MTU, then accumulate reads
until at least `length` bytes have arrived.  `length` is a Go `int`, hence
`Int` here.  Fuel `length.toNat` covers every execution in which each read
delivers at least one byte. -/
def readFromChar (dev : CharDev) (length : Int) : List Bytes × RResult :=
  match dev.getMTU with
  | .error e => ([], .mtuErr e)
  | .ok mtu => readLoop dev.read mtu length.toNat 0 length []

/-- A characteristic whose MTU is 10 and whose every read delivers 10
bytes; writes report full length. -/
def overReadDev : CharDev where
  getMTU := .ok 10
  read := fun _ => .ok [1, 2, 3, 4, 5, 6, 7, 8, 9, 10]
  write := fun _ c => .ok c.length

/-- A quiet characteristic used to instantiate the hypothesis theorems. -/
def idleDev : CharDev where
  getMTU := .ok 23
  read := fun _ => .ok []
  write := fun _ c => .ok c.length

/-- A characteristic with MTU 2 whose writes all succeed in full. -/
def fullWriteDev : CharDev where
  getMTU := .ok 2
  read := fun _ => .ok []
  write := fun _ c => .ok c.length

/-- A characteristic with MTU 3 whose writes all succeed in full. -/
def terminationDev : CharDev where
  getMTU := .ok 3
  read := fun _ => .ok []
  write := fun _ c => .ok c.length

/-- The `i`-th chunk `writeToChar` carves out of `data` under MTU `m`. -/
def chunkIdx (m : Nat) (data : Bytes) (i : Nat) : Bytes :=
  (data.drop (m * i)).take m

/-- A characteristic with MTU 2 whose first write succeeds in full and
whose second write reports only 1 byte. -/
def shortWriteDev : CharDev where
  getMTU := .ok 2
  read := fun _ => .ok []
  write := fun i c => if i = 0 then .ok c.length else .ok 1

/-- A JSON value as Go's `encoding/json` produces into `any`: null, bool,
number, string, array, or string-keyed object.  Numbers are modelled as
integers (all numbers in the claims are integral; float semantics is not
shallowly statable). -/
inductive JsonValue where
  | null
  | bool (b : Bool)
  | num (n : Int)
  | str (s : String)
  | arr (items : List JsonValue)
  | obj (fields : List (String × JsonValue))

/-- `Params` from the source: `type Params = map[string]any`.  A Go map is
a string-keyed object (modelled as an association list) or the nil map,
which `encoding/json` serialises as `null`. -/
abbrev Params := Option (List (String × JsonValue))

/-- `Result` from the source: `type Result = map[string]any`, like
`Params`. -/
abbrev Result := Option (List (String × JsonValue))

/-- The JSON value a `Params` payload denotes: the nil map is `null`,
otherwise a string-keyed object. -/
def paramsJson : Params → JsonValue
  | none => .null
  | some kvs => .obj kvs

/-- `RequestFrame` from the source (json tags: id, src, method, params). -/
structure RequestFrame where
  id : Nat
  source : String
  method : String
  params : Params

/-- `ResponseFrame` from the source (json tags: id, dst, result). -/
structure ResponseFrame where
  id : Nat
  destination : String
  result : Result

/-- Failures of `Roundtrip`, one constructor per wrapped error context in
the source, preserving which step failed. -/
inductive RTError where
  | marshalErr (msg : String)
  | writeLenErr (w : WResult)
  | writeDataErr (w : WResult)
  | readLenErr (r : RResult)
  | readDataErr (r : RResult)
  | unmarshalErr (msg : String)

/-- Failures of `Call`: a failed roundtrip, or one of the two correlation
checks (`wrong response ID` / `wrong response destination`). -/
inductive CallError where
  | roundtripErr (e : RTError)
  | wrongID (expected got : Nat)
  | wrongDestination (expected got : String)

/-- `Call` from the source.  The pseudo-random `rand.Uint64()` is the `id`
parameter; the transport behind `Roundtrip` is the `roundtrip` parameter.
Go returns `(nil, err)` on failure, `Except.error` here. -/
def Call (roundtrip : RequestFrame → Except RTError ResponseFrame) (id : Nat)
    (method : String) (params : Params) : Except CallError ShellyRPC.Result :=
  match roundtrip ⟨id, SourceName, method, params⟩ with
  | .error e => .error (.roundtripErr e)
  | .ok res =>
    if res.id ≠ id then .error (.wrongID id res.id)
    else if res.destination ≠ SourceName then
      .error (.wrongDestination SourceName res.destination)
    else .ok res.result

/-- A response frame correctly correlated with request id 5. -/
def matchedResponse : ResponseFrame where
  id := 5
  destination := SourceName
  result := none

/-- First-match association-list lookup over decoded JSON object fields. -/
def lookupField (fields : List (String × JsonValue)) (key : String) : Option JsonValue :=
  match fields with
  | [] => none
  | (k, v) :: rest => if k = key then some v else lookupField rest key

/-- Modelled from the spec: `RPCError`, the device-side application error
envelope (method-specific error code/message).  The CLI under
`src/cmd/shellyrpc/main.go` switches on `shellyrpc.RPCError`, but the file
of the repository defining it is not among the provided sources. -/
structure RPCError where
  code : Int
  message : String

/-- Modelled from the spec: recognising an error envelope — a numeric
error code and a message string — inside a result payload. -/
def decodeRPCError (r : ShellyRPC.Result) : Option RPCError :=
  match r with
  | none => none
  | some fields =>
    match lookupField fields ("code"), lookupField fields ("message") with
    | some (.num c), some (.str m) => some ⟨c, m⟩
    | _, _ => none

/-- Modelled from the spec: the five-way outcome taxonomy of the call
layer — success, transport/encoding failure (via `RTError`), the two
correlation mismatches, and the distinguishable application error. -/
inductive CallOutcome where
  | success (r : ShellyRPC.Result)
  | transportFailure (e : RTError)
  | idMismatch (expected got : Nat)
  | dstMismatch (expected got : String)
  | applicationFailure (e : RPCError)

/-- Modelled from the spec: `Call` with the application-error distinction
the CLI consumes — after the correlation checks succeed, a result payload
that encodes an error envelope is surfaced as an application failure
rather than folded into the success or failure paths. -/
def CallClassified (roundtrip : RequestFrame → Except RTError ResponseFrame)
    (id : Nat) (method : String) (params : Params) : CallOutcome :=
  match roundtrip ⟨id, SourceName, method, params⟩ with
  | .error e => .transportFailure e
  | .ok res =>
    if res.id ≠ id then .idMismatch id res.id
    else if res.destination ≠ SourceName then .dstMismatch SourceName res.destination
    else
      match decodeRPCError res.result with
      | some e => .applicationFailure e
      | none => .success res.result

/-- A correlated response whose result payload is an error envelope. -/
def envelopeResponse : ResponseFrame where
  id := 9
  destination := SourceName
  result := some [("code", .num (-103)), ("message", .str SourceName)]

/-- A transport-level I/O event of one roundtrip: a chunk written to the
Tx-length or Data characteristic, or a delivery read from the Rx-length or
Data characteristic. -/
inductive Ev where
  | wTx (chunk : Bytes)
  | wData (chunk : Bytes)
  | rRx (bytes : Bytes)
  | rData (bytes : Bytes)
deriving DecidableEq, Repr

/-- The three characteristic handles a connected client owns. -/
structure Transport where
  dataChar : CharDev
  txCtrlChar : CharDev
  rxCtrlChar : CharDev

/-- `Roundtrip` from the source, instrumented with the trace of transport
events: marshal the request (`json.Marshal` is the `enc` parameter), write
the payload length as 4 big-endian bytes to the Tx-length characteristic,
chunk-write the payload to the Data characteristic, read 4 bytes from the
Rx-length characteristic, chunk-read that many bytes from the Data
characteristic, decode (`json.Unmarshal` is the `dec` parameter).  Each
failure returns at once with the step's error; `uint32(len(reqBytes))`
truncates mod 2^32. -/
def Roundtrip (enc : RequestFrame → Except String Bytes)
    (dec : Bytes → Except String ResponseFrame)
    (t : Transport) (req : RequestFrame) : List Ev × Except RTError ResponseFrame :=
  match enc req with
  | .error e => ([], .error (.marshalErr e))
  | .ok reqBytes =>
    let w1 := writeToChar t.txCtrlChar (toBytes (reqBytes.length % 2 ^ 32))
    match w1.2 with
    | .ok =>
      let w2 := writeToChar t.dataChar reqBytes
      match w2.2 with
      | .ok =>
        let r1 := readFromChar t.rxCtrlChar 4
        match r1.2 with
        | .ok resLenBytes =>
          let r2 := readFromChar t.dataChar (Int.ofNat (fromBytes resLenBytes))
          match r2.2 with
          | .ok resBytes =>
            match dec resBytes with
            | .error e =>
              (w1.1.map Ev.wTx ++ (w2.1.map Ev.wData ++ (r1.1.map Ev.rRx ++ r2.1.map Ev.rData)),
               .error (.unmarshalErr e))
            | .ok res =>
              (w1.1.map Ev.wTx ++ (w2.1.map Ev.wData ++ (r1.1.map Ev.rRx ++ r2.1.map Ev.rData)),
               .ok res)
          | bad =>
            (w1.1.map Ev.wTx ++ (w2.1.map Ev.wData ++ (r1.1.map Ev.rRx ++ r2.1.map Ev.rData)),
             .error (.readDataErr bad))
        | bad =>
          (w1.1.map Ev.wTx ++ (w2.1.map Ev.wData ++ r1.1.map Ev.rRx),
           .error (.readLenErr bad))
      | bad => (w1.1.map Ev.wTx ++ w2.1.map Ev.wData, .error (.writeDataErr bad))
    | bad => (w1.1.map Ev.wTx, .error (.writeLenErr bad))

/-- The ordering contract of one roundtrip: the event trace splits into
four consecutive segments — Tx-length writes, then Data writes, then
Rx-length reads, then Data reads — and a failure at any step leaves every
later step's segment empty. -/
def OrderedTrace (evs : List Ev) (res : Except RTError ResponseFrame) : Prop :=
  ∃ t1 t2 t3 t4 : List Ev,
    evs = t1 ++ (t2 ++ (t3 ++ t4)) ∧
    (∀ e ∈ t1, ∃ c, e = Ev.wTx c) ∧
    (∀ e ∈ t2, ∃ c, e = Ev.wData c) ∧
    (∀ e ∈ t3, ∃ b, e = Ev.rRx b) ∧
    (∀ e ∈ t4, ∃ b, e = Ev.rData b) ∧
    (∀ m, res = .error (.marshalErr m) → t1 = [] ∧ t2 = [] ∧ t3 = [] ∧ t4 = []) ∧
    (∀ w, res = .error (.writeLenErr w) → t2 = [] ∧ t3 = [] ∧ t4 = []) ∧
    (∀ w, res = .error (.writeDataErr w) → t3 = [] ∧ t4 = []) ∧
    (∀ r, res = .error (.readLenErr r) → t4 = [])

/-- A small transport whose three characteristics complete a roundtrip. -/
def echoTransport : Transport where
  dataChar :=
    { getMTU := .ok 4
      read := fun _ => .ok [1, 2, 3, 4]
      write := fun _ c => .ok c.length }
  txCtrlChar :=
    { getMTU := .ok 4
      read := fun _ => .ok []
      write := fun _ c => .ok c.length }
  rxCtrlChar :=
    { getMTU := .ok 4
      read := fun _ => .ok [0, 0, 0, 4]
      write := fun _ c => .ok c.length }

/-- The three JSON keyword literals. -/
def litNull : List Char := "null".toList

def litTrue : List Char := "true".toList

def litFalse : List Char := "false".toList

/-- JSON string escaping (the encoder only ever needs quote and
backslash; the frames' field values carry no other escapes). -/
def escapeChar (c : Char) : List Char :=
  if c = '"' ∨ c = '\\' then ['\\', c] else [c]

/-- Rendered JSON string literal, quotes included. -/
def renderKey (s : String) : List Char :=
  '"' :: (s.toList.map escapeChar).flatten ++ ['"']

mutual

/-- Serialise a `JsonValue`, modelling `json.Marshal` (no whitespace;
object fields in list order — Go sorts map keys, so concrete inputs below
are given with sorted keys). -/
def renderJson : JsonValue → List Char
  | .null => litNull
  | .bool true => litTrue
  | .bool false => litFalse
  | .num n => (toString n).toList
  | .str s => renderKey s
  | .arr items => '[' :: renderItems items ++ [']']
  | .obj fields => '\x7b' :: renderFields fields ++ ['\x7d']

def renderItems : List JsonValue → List Char
  | [] => []
  | [v] => renderJson v
  | v :: vs => renderJson v ++ ',' :: renderItems vs

def renderFields : List (String × JsonValue) → List Char
  | [] => []
  | [(k, v)] => renderKey k ++ ':' :: renderJson v
  | (k, v) :: fs => renderKey k ++ ':' :: renderJson v ++ ',' :: renderFields fs

end

def skipWs : List Char → List Char
  | [] => []
  | c :: cs => if c = ' ' ∨ c = '\n' ∨ c = '\t' ∨ c = '\r' then skipWs cs else c :: cs

def parseStringBody : List Char → Option (List Char × List Char)
  | [] => none
  | '\\' :: c :: cs => (parseStringBody cs).map (fun p => (c :: p.1, p.2))
  | '"' :: cs => some ([], cs)
  | c :: cs => (parseStringBody cs).map (fun p => (c :: p.1, p.2))

def parseDigits : List Char → Nat → Nat × List Char
  | [], acc => (acc, [])
  | c :: cs, acc =>
    if c.isDigit then parseDigits cs (acc * 10 + (c.toNat - 48)) else (acc, c :: cs)

def parseNumber : List Char → Option (Int × List Char)
  | '-' :: c :: cs =>
    if c.isDigit then
      let p := parseDigits cs (c.toNat - 48)
      some (-(Int.ofNat p.1), p.2)
    else none
  | c :: cs =>
    if c.isDigit then
      let p := parseDigits cs (c.toNat - 48)
      some (Int.ofNat p.1, p.2)
    else none
  | [] => none

mutual

/-- Parse a `JsonValue`, modelling `json.Unmarshal` into `any`.  The fuel
bounds the nesting depth; `parseJson` supplies more than the input length. -/
def parseValue : Nat → List Char → Option (JsonValue × List Char)
  | 0, _ => none
  | fuel + 1, cs =>
    match skipWs cs with
    | 'n' :: 'u' :: 'l' :: 'l' :: rest => some (.null, rest)
    | 't' :: 'r' :: 'u' :: 'e' :: rest => some (.bool true, rest)
    | 'f' :: 'a' :: 'l' :: 's' :: 'e' :: rest => some (.bool false, rest)
    | '"' :: rest => (parseStringBody rest).map (fun p => (.str (String.mk p.1), p.2))
    | '[' :: rest =>
      match skipWs rest with
      | ']' :: rest2 => some (.arr [], rest2)
      | rest2 => (parseItems fuel rest2).map (fun p => (.arr p.1, p.2))
    | '\x7b' :: rest =>
      match skipWs rest with
      | '\x7d' :: rest2 => some (.obj [], rest2)
      | rest2 => (parseFields fuel rest2).map (fun p => (.obj p.1, p.2))
    | rest => (parseNumber rest).map (fun p => (.num p.1, p.2))

def parseItems : Nat → List Char → Option (List JsonValue × List Char)
  | 0, _ => none
  | fuel + 1, cs =>
    match parseValue fuel cs with
    | none => none
    | some (v, rest) =>
      match skipWs rest with
      | ',' :: rest2 => (parseItems fuel rest2).map (fun p => (v :: p.1, p.2))
      | ']' :: rest2 => some ([v], rest2)
      | _ => none

def parseFields : Nat → List Char → Option (List (String × JsonValue) × List Char)
  | 0, _ => none
  | fuel + 1, cs =>
    match skipWs cs with
    | '"' :: rest =>
      match parseStringBody rest with
      | none => none
      | some (kcs, rest2) =>
        match skipWs rest2 with
        | ':' :: rest3 =>
          match parseValue fuel rest3 with
          | none => none
          | some (v, rest4) =>
            match skipWs rest4 with
            | ',' :: rest5 =>
              (parseFields fuel rest5).map (fun p => ((String.mk kcs, v) :: p.1, p.2))
            | '\x7d' :: rest5 => some ([(String.mk kcs, v)], rest5)
            | _ => none
        | _ => none
    | _ => none

end

def renderJsonStr (v : JsonValue) : String := String.mk (renderJson v)

def parseJson (s : String) : Option JsonValue :=
  match parseValue (s.length + 1) s.toList with
  | some (v, rest) =>
    match skipWs rest with
    | [] => some v
    | _ => none
  | none => none

/-- Encode a `RequestFrame` as `json.Marshal` does: fields in struct tag
order id, src, method, params. -/
def encodeRequestFrame (req : RequestFrame) : String :=
  renderJsonStr (.obj [("id", .num (Int.ofNat req.id)), ("src", .str req.source),
                       ("method", .str req.method), ("params", paramsJson req.params)])

/-- Encode a `ResponseFrame`: fields id, dst, result. -/
def encodeResponseFrame (res : ResponseFrame) : String :=
  renderJsonStr (.obj [("id", .num (Int.ofNat res.id)), ("dst", .str res.destination),
                       ("result", paramsJson res.result)])

/-- Decode a uint64-tagged field as `json.Unmarshal` does: absent means
the zero value, a non-negative number is accepted, anything else errors. -/
def fieldNat (fields : List (String × JsonValue)) (key : String) : Option Nat :=
  match lookupField fields key with
  | none => some 0
  | some (.num n) => if 0 ≤ n then some n.toNat else none
  | some _ => none

/-- Decode a string-tagged field: absent means the empty string. -/
def fieldStr (fields : List (String × JsonValue)) (key : String) : Option String :=
  match lookupField fields key with
  | none => some ""
  | some (.str s) => some s
  | some _ => none

/-- Decode a `map[string]any`-tagged field: absent or JSON null is the nil
map; an object is the map; any other shape errors. -/
def fieldMap (fields : List (String × JsonValue)) (key : String) : Option Params :=
  match lookupField fields key with
  | none => some none
  | some .null => some none
  | some (.obj kvs) => some (some kvs)
  | some _ => none

def decodeRequestFrame (s : String) : Option RequestFrame :=
  match parseJson s with
  | some (.obj fields) =>
    match fieldNat fields ("id"), fieldStr fields ("src"),
        fieldStr fields ("method"), fieldMap fields ("params") with
    | some i, some src, some mth, some ps => some ⟨i, src, mth, ps⟩
    | _, _, _, _ => none
  | _ => none

def decodeResponseFrame (s : String) : Option ResponseFrame :=
  match parseJson s with
  | some (.obj fields) =>
    match fieldNat fields ("id"), fieldStr fields ("dst"), fieldMap fields ("result") with
    | some i, some dst, some r => some ⟨i, dst, r⟩
    | _, _, _ => none
  | _ => none

/-- A bare JSON string, which the spec claims is a representable params
payload. -/
def bareString : String := "a bare string"

def methodName : String := "Shelly.GetConfig"

/-- Representative params `null` (the nil map). -/
def paramsNull : Params := none

/-- Representative params for the object with an array value. -/
def paramsAB : Params := some [("a", .num 1), ("b", .arr [.num 1, .num 2, .num 3])]

/-- Representative deeply nested params. -/
def paramsDeep : Params :=
  some [("outer", .obj [("inner", .obj
    [("leaf", .arr [.str bareString, .bool true, .null])])])]

/-- A response frame with an object result payload. -/
def notifyResponse : ResponseFrame where
  id := 12
  destination := SourceName
  result := some [("ok", .bool true)]

/-- C8: the 4-byte big-endian codec is a bijection on uint32. -/
theorem fromBytes_toBytes (i : Nat) (h : i < 2 ^ 32) : fromBytes (toBytes i) = i := by
  simp only [toBytes, fromBytes, List.getD_cons_zero, List.getD_cons_succ]
  omega

/-- Witness for C8 at both stated extremes, 0 and 4294967295. -/
theorem fromBytes_toBytes_witness :
    fromBytes (toBytes 0) = 0 ∧ fromBytes (toBytes 4294967295) = 4294967295 :=
  ⟨fromBytes_toBytes 0 (by decide), fromBytes_toBytes 4294967295 (by decide)⟩

/-- C1: evaluating `readFromChar` at request `length = 4` against a
characteristic whose first read delivers 10 bytes (legal: MTU = 10): the
code returns all 10 accumulated bytes, not the first 4 — the accumulation
loop never caps the total at `length`. -/
theorem readFromChar_over_read :
    (readFromChar overReadDev 4).2 = .ok [1, 2, 3, 4, 5, 6, 7, 8, 9, 10] ∧
    (readFromChar overReadDev 4).2 ≠ .ok [1, 2, 3, 4] ∧
    [1, 2, 3, 4, 5, 6, 7, 8, 9, 10].length = 10 := by
  decide

/-- C9: when the requested byte count is ≤ 0 (Go `int` can be negative)
and `GetMTU` succeeds, `readFromChar` performs no reads (empty trace) and
returns the empty byte sequence without error. -/
theorem readFromChar_nonpos (dev : CharDev) (m : Nat) (len : Int)
    (hm : dev.getMTU = .ok m) (hlen : len ≤ 0) :
    readFromChar dev len = ([], .ok []) := by
  unfold readFromChar
  rw [hm]
  unfold readLoop
  rw [if_pos hlen]

/-- Witness for C9 at MTU 23 and the negative request −3. -/
theorem readFromChar_nonpos_witness :
    readFromChar idleDev (-3) = ([], .ok []) :=
  readFromChar_nonpos idleDev 23 (-3) rfl (by decide)

/-- The chunk carved off by one iteration of `writeToChar` is always a
`take`, whether or not the data exceeds the MTU. -/
theorem chunk_eq_take (mtu : Nat) (data : Bytes) :
    (if mtu < data.length then data.take mtu else data) = data.take mtu := by
  split
  · rfl
  · exact (List.take_of_length_le (by omega)).symm

theorem writeLoop_cons_error (wr : Nat → Bytes → Except String Nat) (m fuel idx : Nat)
    (d : Nat) (ds : Bytes) (e : String)
    (hw : wr idx ((d :: ds).take m) = .error e) :
    writeLoop wr m (fuel + 1) idx (d :: ds) = ([(d :: ds).take m], .transportErr e) := by
  simp only [writeLoop, chunk_eq_take, hw]

theorem writeLoop_cons_short (wr : Nat → Bytes → Except String Nat) (m fuel idx : Nat)
    (d : Nat) (ds : Bytes) (n : Nat)
    (hw : wr idx ((d :: ds).take m) = .ok n) (hne : n ≠ ((d :: ds).take m).length) :
    writeLoop wr m (fuel + 1) idx (d :: ds) =
      ([(d :: ds).take m], .shortWrite n ((d :: ds).take m).length) := by
  simp only [writeLoop, chunk_eq_take, hw]
  rw [if_neg hne]

/-- Dropping as many bytes as the chunk holds is dropping `m` bytes: when
fewer than `m` remain the drop empties the list either way. -/
theorem drop_take_length (m : Nat) (L : Bytes) : L.drop (L.take m).length = L.drop m := by
  rw [List.length_take]
  rcases Nat.le_total m L.length with h | h
  · rw [Nat.min_eq_left h]
  · rw [Nat.min_eq_right h, List.drop_eq_nil_of_le le_rfl, List.drop_eq_nil_of_le h]

theorem writeLoop_cons_full (wr : Nat → Bytes → Except String Nat) (m fuel idx : Nat)
    (d : Nat) (ds : Bytes)
    (hw : wr idx ((d :: ds).take m) = .ok ((d :: ds).take m).length) :
    writeLoop wr m (fuel + 1) idx (d :: ds) =
      ((d :: ds).take m :: (writeLoop wr m fuel (idx + 1) ((d :: ds).drop m)).1,
       (writeLoop wr m fuel (idx + 1) ((d :: ds).drop m)).2) := by
  simp only [writeLoop, chunk_eq_take, hw]
  rw [if_pos trivial]
  simp only [drop_take_length]

/-- Loop invariant for C3: with MTU ≥ 1, enough fuel and every write
reporting full length, the loop succeeds, its chunk trace concatenates
back to the data, and every chunk respects the MTU. -/
theorem writeLoop_success (wr : Nat → Bytes → Except String Nat) (m : Nat)
    (h1 : 1 ≤ m) (hw : ∀ i c, wr i c = .ok c.length) :
    ∀ fuel idx data, data.length ≤ fuel →
      (writeLoop wr m fuel idx data).2 = .ok ∧
      (writeLoop wr m fuel idx data).1.flatten = data ∧
      ∀ c ∈ (writeLoop wr m fuel idx data).1, c.length ≤ m := by
  intro fuel
  induction fuel with
  | zero =>
    intro idx data hlen
    have hd : data = [] := List.eq_nil_of_length_eq_zero (Nat.le_zero.mp hlen)
    subst hd
    simp [writeLoop]
  | succ f ih =>
    intro idx data hlen
    cases data with
    | nil => simp [writeLoop]
    | cons d ds =>
      rw [writeLoop_cons_full wr m f idx d ds (hw idx _)]
      have hdrop : ((d :: ds).drop m).length ≤ f := by
        simp only [List.length_drop, List.length_cons]
        simp only [List.length_cons] at hlen
        omega
      obtain ⟨hok, hflat, hmem⟩ := ih (idx + 1) _ hdrop
      refine ⟨hok, ?_, ?_⟩
      · simp only [List.flatten_cons, hflat]
        exact List.take_append_drop _ _
      · intro c hc
        rcases List.mem_cons.mp hc with hc | hc
        · subst hc
          simp only [List.length_take, List.length_cons]
          omega
        · exact hmem c hc

/-- C3: with MTU m ≥ 1 and every chunk write succeeding at full length,
`writeToChar` succeeds, emits chunks each of size ≤ m whose in-order
concatenation is the input, and the total bytes written equal the input
length. -/
theorem writeToChar_success (dev : CharDev) (m : Nat) (data : Bytes)
    (hm : dev.getMTU = .ok m) (h1 : 1 ≤ m)
    (hw : ∀ i c, dev.write i c = .ok c.length) :
    (writeToChar dev data).2 = .ok ∧
    (writeToChar dev data).1.flatten = data ∧
    (∀ c ∈ (writeToChar dev data).1, c.length ≤ m) ∧
    ((writeToChar dev data).1.map List.length).sum = data.length := by
  unfold writeToChar
  rw [hm]
  obtain ⟨hok, hflat, hmem⟩ := writeLoop_success dev.write m h1 hw data.length 0 data le_rfl
  refine ⟨hok, hflat, hmem, ?_⟩
  rw [← List.length_flatten, hflat]

/-- Witness for C3: MTU 2, five bytes of data. -/
theorem writeToChar_success_witness :
    (writeToChar fullWriteDev [1, 2, 3, 4, 5]).2 = .ok ∧
    (writeToChar fullWriteDev [1, 2, 3, 4, 5]).1.flatten = [1, 2, 3, 4, 5] :=
  ⟨(writeToChar_success fullWriteDev 2 [1, 2, 3, 4, 5] rfl (by decide) fun _ _ => rfl).1,
   (writeToChar_success fullWriteDev 2 [1, 2, 3, 4, 5] rfl (by decide) fun _ _ => rfl).2.1⟩

/-- Loop invariant for C10: with MTU ≥ 1 and fuel at least the remaining
byte count, the loop never exhausts its fuel (each iteration removes at
least one byte or returns) and performs at most one write per byte. -/
theorem writeLoop_no_fuelOut (wr : Nat → Bytes → Except String Nat) (m : Nat)
    (h1 : 1 ≤ m) :
    ∀ fuel idx data, data.length ≤ fuel →
      (writeLoop wr m fuel idx data).2 ≠ .fuelOut ∧
      (writeLoop wr m fuel idx data).1.length ≤ data.length := by
  intro fuel
  induction fuel with
  | zero =>
    intro idx data hlen
    have hd : data = [] := List.eq_nil_of_length_eq_zero (Nat.le_zero.mp hlen)
    subst hd
    simp [writeLoop]
  | succ f ih =>
    intro idx data hlen
    cases data with
    | nil => simp [writeLoop]
    | cons d ds =>
      cases hres : wr idx ((d :: ds).take m) with
      | error e =>
        rw [writeLoop_cons_error wr m f idx d ds e hres]
        refine ⟨(fun h => nomatch h), ?_⟩
        simp
      | ok n =>
        by_cases hne : n = ((d :: ds).take m).length
        · subst hne
          rw [writeLoop_cons_full wr m f idx d ds hres]
          have hdrop : ((d :: ds).drop m).length ≤ f := by
            simp only [List.length_drop, List.length_cons]
            simp only [List.length_cons] at hlen
            omega
          obtain ⟨hfo, hcnt⟩ := ih (idx + 1) _ hdrop
          refine ⟨hfo, ?_⟩
          simp only [List.length_drop, List.length_cons] at hcnt
          simp only [List.length_cons]
          omega
        · rw [writeLoop_cons_short wr m f idx d ds n hres hne]
          refine ⟨(fun h => nomatch h), ?_⟩
          simp

/-- C10: with MTU m ≥ 1, `writeToChar` terminates within `data.length`
iterations — the fuel bound `data.length` is never exhausted, because each
iteration removes min(m, remaining) ≥ 1 bytes or returns — and it issues
at most `data.length` chunk writes. -/
theorem writeToChar_terminates (dev : CharDev) (m : Nat) (data : Bytes)
    (hm : dev.getMTU = .ok m) (h1 : 1 ≤ m) :
    (writeToChar dev data).2 ≠ .fuelOut ∧
    (writeToChar dev data).1.length ≤ data.length := by
  unfold writeToChar
  rw [hm]
  exact writeLoop_no_fuelOut dev.write m h1 data.length 0 data le_rfl

/-- Witness for C10: MTU 3, seven bytes of data. -/
theorem writeToChar_terminates_witness :
    (writeToChar terminationDev [9, 8, 7, 6, 5, 4, 3]).2 ≠ .fuelOut :=
  (writeToChar_terminates terminationDev 3 [9, 8, 7, 6, 5, 4, 3] rfl (by decide)).1

theorem chunkIdx_zero (m : Nat) (data : Bytes) : chunkIdx m data 0 = data.take m := by
  simp [chunkIdx]

theorem chunkIdx_succ (m : Nat) (data : Bytes) (i : Nat) :
    chunkIdx m (data.drop m) i = chunkIdx m data (i + 1) := by
  unfold chunkIdx
  rw [List.drop_drop]
  have h : m + m * i = m * (i + 1) := by ring
  rw [h]

theorem range_map_chunk (m : Nat) (data : Bytes) (k : Nat) :
    (List.range (k + 1)).map (chunkIdx m data) =
      data.take m :: (List.range k).map (chunkIdx m (data.drop m)) := by
  rw [List.range_succ_eq_map, List.map_cons, List.map_map]
  congr 1
  apply List.map_congr_left
  intro i _
  simp only [Function.comp_apply]
  exact (chunkIdx_succ m data i).symm

/-- Loop invariant for C4: if the first `k` chunk writes succeed in full
and the `k`-th fails (outright error or short report), the loop stops with
exactly the first `k + 1` chunks attempted. -/
theorem writeLoop_first_failure (wr : Nat → Bytes → Except String Nat) (m : Nat)
    (h1 : 1 ≤ m) :
    ∀ k idx data fuel, m * k < data.length → data.length ≤ fuel →
      (∀ i, i < k → wr (idx + i) (chunkIdx m data i) = .ok (chunkIdx m data i).length) →
      (∀ e, wr (idx + k) (chunkIdx m data k) = .error e →
        writeLoop wr m fuel idx data =
          ((List.range (k + 1)).map (chunkIdx m data), .transportErr e)) ∧
      (∀ n, wr (idx + k) (chunkIdx m data k) = .ok n →
        n ≠ (chunkIdx m data k).length →
        writeLoop wr m fuel idx data =
          ((List.range (k + 1)).map (chunkIdx m data),
           .shortWrite n (chunkIdx m data k).length)) := by
  intro k
  induction k with
  | zero =>
    intro idx data fuel hreach hfuel hok
    cases data with
    | nil => simp at hreach
    | cons d ds =>
      cases fuel with
      | zero => simp at hfuel
      | succ f =>
        constructor
        · intro e he
          rw [Nat.add_zero, chunkIdx_zero] at he
          rw [writeLoop_cons_error wr m f idx d ds e he]
          simp [List.range_succ, chunkIdx_zero]
        · intro n hn hne
          rw [Nat.add_zero, chunkIdx_zero] at hn
          rw [chunkIdx_zero] at hne
          rw [writeLoop_cons_short wr m f idx d ds n hn hne]
          simp [List.range_succ, chunkIdx_zero]
  | succ k ih =>
    intro idx data fuel hreach hfuel hok
    cases data with
    | nil => simp at hreach
    | cons d ds =>
      cases fuel with
      | zero => simp at hfuel
      | succ f =>
        have h0 : wr idx ((d :: ds).take m) = .ok ((d :: ds).take m).length := by
          have h := hok 0 (Nat.succ_pos k)
          rw [Nat.add_zero, chunkIdx_zero] at h
          exact h
        rw [writeLoop_cons_full wr m f idx d ds h0]
        have hmlt : m < (d :: ds).length := by
          have hle : m ≤ m * (k + 1) := Nat.le_mul_of_pos_right m (Nat.succ_pos k)
          omega
        have hdroplen : ((d :: ds).drop m).length = (d :: ds).length - m :=
          List.length_drop m (d :: ds)
        have hmul : m * (k + 1) = m * k + m := by ring
        have hreach2 : m * k < ((d :: ds).drop m).length := by
          rw [hdroplen]
          omega
        have hfuel2 : ((d :: ds).drop m).length ≤ f := by
          rw [hdroplen]
          simp only [List.length_cons] at hfuel ⊢
          omega
        have hok2 : ∀ i, i < k → wr (idx + 1 + i) (chunkIdx m ((d :: ds).drop m) i)
            = .ok (chunkIdx m ((d :: ds).drop m) i).length := by
          intro i hi
          rw [chunkIdx_succ]
          have h2 : idx + 1 + i = idx + (i + 1) := by ring
          rw [h2]
          exact hok (i + 1) (Nat.succ_lt_succ hi)
        obtain ⟨ihe, ihs⟩ := ih (idx + 1) ((d :: ds).drop m) f hreach2 hfuel2 hok2
        have hidx : idx + 1 + k = idx + (k + 1) := by ring
        constructor
        · intro e he
          have he2 : wr (idx + 1 + k) (chunkIdx m ((d :: ds).drop m) k) = .error e := by
            rw [chunkIdx_succ, hidx]
            exact he
          rw [ihe e he2, range_map_chunk m (d :: ds) (k + 1)]
        · intro n hn hne
          have hn2 : wr (idx + 1 + k) (chunkIdx m ((d :: ds).drop m) k) = .ok n := by
            rw [chunkIdx_succ, hidx]
            exact hn
          have hne2 : n ≠ (chunkIdx m ((d :: ds).drop m) k).length := by
            rw [chunkIdx_succ]
            exact hne
          rw [ihs n hn2 hne2, range_map_chunk m (d :: ds) (k + 1), chunkIdx_succ]

/-- C4: under MTU m ≥ 1, if the chunk writes before index `k` all succeed
in full and the `k`-th chunk write fails — an outright error, or a report
of `n ≠` chunk length bytes — `writeToChar` aborts immediately with a
transport / short-write error; the chunks attempted are exactly the first
`k + 1`, so no further chunk write occurs. -/
theorem writeToChar_abort_on_failure (dev : CharDev) (m : Nat) (data : Bytes) (k : Nat)
    (hm : dev.getMTU = .ok m) (h1 : 1 ≤ m) (hreach : m * k < data.length)
    (hok : ∀ i, i < k → dev.write i (chunkIdx m data i) = .ok (chunkIdx m data i).length) :
    (∀ e, dev.write k (chunkIdx m data k) = .error e →
      writeToChar dev data =
        ((List.range (k + 1)).map (chunkIdx m data), .transportErr e)) ∧
    (∀ n, dev.write k (chunkIdx m data k) = .ok n → n ≠ (chunkIdx m data k).length →
      writeToChar dev data =
        ((List.range (k + 1)).map (chunkIdx m data),
         .shortWrite n (chunkIdx m data k).length)) := by
  unfold writeToChar
  rw [hm]
  obtain ⟨he, hs⟩ := writeLoop_first_failure dev.write m h1 k 0 data data.length
    hreach le_rfl (fun i hi => by rw [Nat.zero_add]; exact hok i hi)
  constructor
  · intro e h
    exact he e (by rw [Nat.zero_add]; exact h)
  · intro n h hne
    exact hs n (by rw [Nat.zero_add]; exact h) hne

/-- Witness for C4: the second chunk write is short, so exactly two chunks
are attempted and the outcome is the short-write error. -/
theorem writeToChar_abort_witness :
    writeToChar shortWriteDev [1, 2, 3, 4, 5] = ([[1, 2], [3, 4]], .shortWrite 1 2) := by
  have h := writeToChar_abort_on_failure shortWriteDev 2 [1, 2, 3, 4, 5] 1 rfl
    (by decide) (by decide)
    (fun i hi => by
      have h0 : i = 0 := by omega
      subst h0
      rfl)
  exact h.2 1 rfl (by decide)

/-- C2: when the roundtrip decodes a response, `Call` fails with a
correlation error — and returns no result — whenever the response id
differs from the generated request id (checked first) or the response
destination differs from the client's source identifier; when both match
it returns the response's result field. -/
theorem call_correlation (roundtrip : RequestFrame → Except RTError ResponseFrame)
    (id : Nat) (method : String) (params : Params) (res : ResponseFrame)
    (hres : roundtrip ⟨id, SourceName, method, params⟩ = .ok res) :
    (res.id ≠ id → Call roundtrip id method params = .error (.wrongID id res.id)) ∧
    (res.id = id → res.destination ≠ SourceName →
      Call roundtrip id method params =
        .error (.wrongDestination SourceName res.destination)) ∧
    (res.id = id → res.destination = SourceName →
      Call roundtrip id method params = .ok res.result) := by
  unfold Call
  rw [hres]
  dsimp only
  refine ⟨?_, ?_, ?_⟩
  · intro h
    rw [if_pos h]
  · intro h1 h2
    rw [if_neg (fun hne => hne h1), if_pos h2]
  · intro h1 h2
    rw [if_neg (fun hne => hne h1), if_neg (fun hne => hne h2)]

/-- Witness for C2: a transport echoing a matched response makes `Call`
return its result; the same theorem pinned at a mismatched id 6 yields the
correlation error. -/
theorem call_correlation_witness :
    Call (fun _ => .ok matchedResponse) 5 SourceName none = .ok none ∧
    Call (fun _ => .ok matchedResponse) 6 SourceName none = .error (.wrongID 6 5) :=
  ⟨(call_correlation (fun _ => .ok matchedResponse) 5 SourceName none
      matchedResponse rfl).2.2 rfl rfl,
   (call_correlation (fun _ => .ok matchedResponse) 6 SourceName none
      matchedResponse rfl).1 (by decide)⟩

/-- C7: a structurally valid, correctly correlated response whose result
payload encodes an error envelope is returned as an application-error
outcome, distinct from success and from every transport, encoding and
correlation failure. -/
theorem call_application_error (roundtrip : RequestFrame → Except RTError ResponseFrame)
    (id : Nat) (method : String) (params : Params) (res : ResponseFrame) (e : RPCError)
    (hres : roundtrip ⟨id, SourceName, method, params⟩ = .ok res)
    (hid : res.id = id) (hdst : res.destination = SourceName)
    (henv : decodeRPCError res.result = some e) :
    CallClassified roundtrip id method params = .applicationFailure e ∧
    (∀ r, CallOutcome.applicationFailure e ≠ .success r) ∧
    (∀ f, CallOutcome.applicationFailure e ≠ .transportFailure f) ∧
    (∀ a b, CallOutcome.applicationFailure e ≠ .idMismatch a b) ∧
    (∀ a b, CallOutcome.applicationFailure e ≠ .dstMismatch a b) := by
  refine ⟨?_, (fun r h => nomatch h), (fun f h => nomatch h),
    (fun a b h => nomatch h), (fun a b h => nomatch h)⟩
  unfold CallClassified
  rw [hres]
  dsimp only
  rw [if_neg (fun hne => hne hid), if_neg (fun hne => hne hdst), henv]

/-- Witness for C7 at a concrete envelope. -/
theorem call_application_error_witness :
    CallClassified (fun _ => .ok envelopeResponse) 9 SourceName none =
      .applicationFailure ⟨-103, SourceName⟩ :=
  (call_application_error (fun _ => .ok envelopeResponse) 9 SourceName none
    envelopeResponse ⟨-103, SourceName⟩ rfl rfl rfl rfl).1

theorem mem_map_shape (f : Bytes → Ev) (l : List Bytes) :
    ∀ e ∈ l.map f, ∃ c, e = f c := by
  intro e he
  rcases List.mem_map.mp he with ⟨c, _, h⟩
  exact ⟨c, h.symm⟩

theorem orderedTrace_marshal (m : String) :
    OrderedTrace [] (.error (.marshalErr m)) :=
  ⟨[], [], [], [], rfl,
   (fun _ he => nomatch he), (fun _ he => nomatch he),
   (fun _ he => nomatch he), (fun _ he => nomatch he),
   (fun _ _ => ⟨rfl, rfl, rfl, rfl⟩),
   (fun _ h => nomatch h), (fun _ h => nomatch h), (fun _ h => nomatch h)⟩

theorem orderedTrace_writeLen (l1 : List Bytes) (w : WResult) :
    OrderedTrace (l1.map Ev.wTx) (.error (.writeLenErr w)) :=
  ⟨l1.map Ev.wTx, [], [], [], by simp,
   mem_map_shape Ev.wTx l1,
   (fun _ he => nomatch he), (fun _ he => nomatch he), (fun _ he => nomatch he),
   (fun _ h => nomatch h),
   (fun _ _ => ⟨rfl, rfl, rfl⟩),
   (fun _ h => nomatch h), (fun _ h => nomatch h)⟩

theorem orderedTrace_writeData (l1 l2 : List Bytes) (w : WResult) :
    OrderedTrace (l1.map Ev.wTx ++ l2.map Ev.wData) (.error (.writeDataErr w)) :=
  ⟨l1.map Ev.wTx, l2.map Ev.wData, [], [], by simp,
   mem_map_shape Ev.wTx l1, mem_map_shape Ev.wData l2,
   (fun _ he => nomatch he), (fun _ he => nomatch he),
   (fun _ h => nomatch h), (fun _ h => nomatch h),
   (fun _ _ => ⟨rfl, rfl⟩),
   (fun _ h => nomatch h)⟩

theorem orderedTrace_readLen (l1 l2 l3 : List Bytes) (r : RResult) :
    OrderedTrace (l1.map Ev.wTx ++ (l2.map Ev.wData ++ l3.map Ev.rRx))
      (.error (.readLenErr r)) :=
  ⟨l1.map Ev.wTx, l2.map Ev.wData, l3.map Ev.rRx, [], by simp,
   mem_map_shape Ev.wTx l1, mem_map_shape Ev.wData l2, mem_map_shape Ev.rRx l3,
   (fun _ he => nomatch he),
   (fun _ h => nomatch h), (fun _ h => nomatch h), (fun _ h => nomatch h),
   (fun _ _ => rfl)⟩

theorem orderedTrace_full (l1 l2 l3 l4 : List Bytes)
    (res : Except RTError ResponseFrame)
    (h : (∀ m, res ≠ .error (.marshalErr m)) ∧
         (∀ w, res ≠ .error (.writeLenErr w)) ∧
         (∀ w, res ≠ .error (.writeDataErr w)) ∧
         (∀ r, res ≠ .error (.readLenErr r))) :
    OrderedTrace (l1.map Ev.wTx ++ (l2.map Ev.wData ++ (l3.map Ev.rRx ++ l4.map Ev.rData)))
      res :=
  ⟨l1.map Ev.wTx, l2.map Ev.wData, l3.map Ev.rRx, l4.map Ev.rData, rfl,
   mem_map_shape Ev.wTx l1, mem_map_shape Ev.wData l2,
   mem_map_shape Ev.rRx l3, mem_map_shape Ev.rData l4,
   (fun m hm => absurd hm (h.1 m)),
   (fun w hw => absurd hw (h.2.1 w)),
   (fun w hw => absurd hw (h.2.2.1 w)),
   (fun r hr => absurd hr (h.2.2.2 r))⟩

/-- C5: the transport operations of `Roundtrip` happen in exactly the
order Tx-length write, Data payload write, Rx-length read, Data payload
read, with no interleaving, and a failing step leaves every later step's
events absent. -/
theorem roundtrip_ordering (enc : RequestFrame → Except String Bytes)
    (dec : Bytes → Except String ResponseFrame) (t : Transport) (req : RequestFrame) :
    OrderedTrace (Roundtrip enc dec t req).1 (Roundtrip enc dec t req).2 := by
  unfold Roundtrip
  cases henc : enc req with
  | error e => exact orderedTrace_marshal e
  | ok reqBytes =>
    dsimp only
    cases h1 : (writeToChar t.txCtrlChar (toBytes (reqBytes.length % 2 ^ 32))).2 with
    | mtuErr e => exact orderedTrace_writeLen _ _
    | transportErr e => exact orderedTrace_writeLen _ _
    | shortWrite a b => exact orderedTrace_writeLen _ _
    | fuelOut => exact orderedTrace_writeLen _ _
    | ok =>
      dsimp only
      cases h2 : (writeToChar t.dataChar reqBytes).2 with
      | mtuErr e => exact orderedTrace_writeData _ _ _
      | transportErr e => exact orderedTrace_writeData _ _ _
      | shortWrite a b => exact orderedTrace_writeData _ _ _
      | fuelOut => exact orderedTrace_writeData _ _ _
      | ok =>
        dsimp only
        cases h3 : (readFromChar t.rxCtrlChar 4).2 with
        | mtuErr e => exact orderedTrace_readLen _ _ _ _
        | readErr e => exact orderedTrace_readLen _ _ _ _
        | fuelOut => exact orderedTrace_readLen _ _ _ _
        | ok resLenBytes =>
          dsimp only
          cases h4 : (readFromChar t.dataChar (Int.ofNat (fromBytes resLenBytes))).2 with
          | mtuErr e =>
            dsimp only
            exact orderedTrace_full _ _ _ _ _
              ⟨(fun _ h => nomatch h), (fun _ h => nomatch h),
               (fun _ h => nomatch h), (fun _ h => nomatch h)⟩
          | readErr e =>
            dsimp only
            exact orderedTrace_full _ _ _ _ _
              ⟨(fun _ h => nomatch h), (fun _ h => nomatch h),
               (fun _ h => nomatch h), (fun _ h => nomatch h)⟩
          | fuelOut =>
            dsimp only
            exact orderedTrace_full _ _ _ _ _
              ⟨(fun _ h => nomatch h), (fun _ h => nomatch h),
               (fun _ h => nomatch h), (fun _ h => nomatch h)⟩
          | ok resBytes =>
            dsimp only
            cases hdec : dec resBytes with
            | error e =>
              dsimp only
              exact orderedTrace_full _ _ _ _ _
                ⟨(fun _ h => nomatch h), (fun _ h => nomatch h),
                 (fun _ h => nomatch h), (fun _ h => nomatch h)⟩
            | ok res =>
              dsimp only
              exact orderedTrace_full _ _ _ _ _
                ⟨(fun _ h => nomatch h), (fun _ h => nomatch h),
                 (fun _ h => nomatch h), (fun _ h => nomatch h)⟩

/-- Witness for C5 on a concrete transport, codec and request. -/
theorem roundtrip_ordering_witness :
    OrderedTrace
      (Roundtrip (fun _ => .ok [7, 7]) (fun _ => .ok matchedResponse)
        echoTransport ⟨5, SourceName, SourceName, none⟩).1
      (Roundtrip (fun _ => .ok [7, 7]) (fun _ => .ok matchedResponse)
        echoTransport ⟨5, SourceName, SourceName, none⟩).2 :=
  roundtrip_ordering (fun _ => .ok [7, 7]) (fun _ => .ok matchedResponse)
    echoTransport ⟨5, SourceName, SourceName, none⟩

/-- C6 counterexample: `Params` is Go's `map[string]any`, so a params
payload is always a string-keyed object or the nil map — no `Params`
value denotes a bare JSON string. -/
theorem params_no_bare_string :
    ¬ ∃ p : Params, paramsJson p = JsonValue.str bareString := by
  rintro ⟨p, hp⟩
  cases p with
  | none => exact nomatch hp
  | some kvs => exact nomatch hp

/-- C6 as amended: the params/result payload type (`map[string]any`)
denotes a string-keyed object or null, whose member values can be any
nested JSON value; encode-then-decode round-trips frames unchanged for
the representative params — `null`, the object with an array value, the
deeply nested object — and for an object result; a bare string is not
representable as the payload itself. -/
theorem frame_roundtrip :
    decodeRequestFrame (encodeRequestFrame ⟨7, SourceName, methodName, paramsNull⟩) =
      some ⟨7, SourceName, methodName, paramsNull⟩ ∧
    decodeRequestFrame (encodeRequestFrame ⟨7, SourceName, methodName, paramsAB⟩) =
      some ⟨7, SourceName, methodName, paramsAB⟩ ∧
    decodeRequestFrame (encodeRequestFrame ⟨7, SourceName, methodName, paramsDeep⟩) =
      some ⟨7, SourceName, methodName, paramsDeep⟩ ∧
    decodeResponseFrame (encodeResponseFrame notifyResponse) = some notifyResponse ∧
    ¬ ∃ p : Params, paramsJson p = JsonValue.str bareString := by
  refine ⟨rfl, rfl, rfl, rfl, ?_⟩
  rintro ⟨p, hp⟩
  cases p with
  | none => exact nomatch hp
  | some kvs => exact nomatch hp

end ShellyRPC

